import Mathlib

/-!
Verification of the three-stage streaming export pipeline in src/index.js:
generate users to an NDJSON line stream, convert the stream to a streamed
XLSX table, and zip the two artifacts, orchestrated by an agenda job.

The JavaScript is embedded shallowly: JSON objects become ordered
association lists of string keys and string values (every field of the
generated user serializes to a JSON string, dates as their ISO strings);
each line of the NDJSON artifact is classified the way the converter's
readline loop observes it (blank, parseable object, or malformed); the
observable behaviour of each stage is a pure function returning the data
it writes together with the list of events the code awaits in order
(writes, progress logs, resource samples, pacing pauses, end() calls,
workbook commits), so that sequencing claims become statements about
event order in the concatenated awaited trace — and an ordering the code
does not await, such as a write stream's flush completion, has no event
in that trace.
-/

namespace UsersExport

/-- A JSON object as an ordered association list of string keys and string
values, in insertion order, as JSON.stringify and JSON.parse preserve it. -/
abbrev Obj := List (String × String)

/-- One line of the NDJSON artifact, as the converter's readline loop sees
it: a blank line (trim() is empty); a line that parses as a JSON object;
a line holding valid JSON that is not an object — an array, string,
number or boolean — carried as the pair of an is-array flag (ExcelJS
addRow treats an array positionally, every other value through its keys)
and the value's Object.keys/entries view, i.e. index-keyed pairs for an
array or string and the empty list for a number or boolean; or a
malformed non-blank line on which JSON.parse throws. A bare JSON null
line is outside the model: its behaviour turns on Object.keys(null)
throwing a TypeError when it is the first non-blank line, which no claim
or spec sentence exercises. -/
inductive Line where
  | blank : Line
  | record : Obj → Line
  | nonObject : Bool → Obj → Line
  | malformed : Line
deriving DecidableEq

/-- A line is non-blank when its trimmed text is nonempty; a serialized
object is a nonempty brace-delimited string, hence never blank. -/
def lineNonBlank : Line → Bool
  | Line.blank => false
  | Line.record _ => true
  | Line.nonObject _ _ => true
  | Line.malformed => true

/-- Whether a line is blank or parses as a JSON object: the shape of line
the generation stage produces and the shape several spec properties
quantify over with the words well-formed JSON object. -/
def isObjectLine : Line → Bool
  | Line.blank => true
  | Line.record _ => true
  | Line.nonObject _ _ => false
  | Line.malformed => false

/-- The faker calls made by generateUser (src/index.js lines 42-50),
modelled as an abstract supply of field strings indexed by the record's
position in the run; faker is an external library, so its outputs are
parameters of the development. -/
structure Faker where
  uuid : Nat → String
  username : Nat → String
  email : Nat → String
  avatar : Nat → String
  password : Nat → String
  birthdate : Nat → String
  pastDate : Nat → String

/-- The synthetic user record (src/index.js lines 42-50). Date-valued
fields are carried as their JSON serializations. -/
structure User where
  userId : String
  username : String
  email : String
  avatar : String
  password : String
  birthdate : String
  registeredAt : String
deriving DecidableEq

/-- generateUser (src/index.js lines 42-50): one object literal whose seven
fields are filled by faker calls, in the literal's key order. -/
def generateUser (f : Faker) (i : Nat) : User :=
  { userId := f.uuid i
    username := f.username i
    email := f.email i
    avatar := f.avatar i
    password := f.password i
    birthdate := f.birthdate i
    registeredAt := f.pastDate i }

/-- JSON.stringify(user): the object's key/value pairs in the insertion
order of the object literal in generateUser. -/
def userToObj (u : User) : Obj :=
  [("userId", u.userId), ("username", u.username), ("email", u.email),
   ("avatar", u.avatar), ("password", u.password),
   ("birthdate", u.birthdate), ("registeredAt", u.registeredAt)]

/-- The seven keys of a generated user, in insertion order. -/
def userKeys : List String :=
  ["userId", "username", "email", "avatar", "password", "birthdate", "registeredAt"]

/-- The observable events of one job run, in the order the code awaits
them. Log lines that carry no data relevant to the claims are represented
by their event alone. Constructor prefixes w, c, z mark the generation,
conversion and archiving stages. streamEndCall is the synchronous
stream.end() invocation; sinkFinish stands for the write stream's
finish/close event, which the stream emits asynchronously after its
buffers flush — the source registers no listener for it and never awaits
it, so it can appear in no awaited trace of this program. -/
inductive Event where
  | jobStartLog : Event
  | jobStartStats : Event
  | writeLine : Line → Event
  | wProgress : Nat → Event
  | wStats : Event
  | wPause : Nat → Event
  | streamEndCall : Event
  | sinkFinish : Event
  | addRow : List (Option String) → Event
  | cProgress : Nat → Event
  | cStats : Event
  | workbookCommit : Event
  | zipEntry : String → Nat → Event
  | zipFinalize : Event
  | outputClose : Event
  | zipStats : Event
  | zipResolve : Event
  | jobFailed : Event
  | jobDoneLog : Event
  | jobDoneStats : Event
deriving DecidableEq

/-- The pipeline stage an event belongs to, as a rank: 0 job start, 1
generation, 2 conversion, 3 archiving, 4 job end or failure. -/
def stageRank : Event → Nat
  | Event.jobStartLog => 0
  | Event.jobStartStats => 0
  | Event.writeLine _ => 1
  | Event.wProgress _ => 1
  | Event.wStats => 1
  | Event.wPause _ => 1
  | Event.streamEndCall => 1
  | Event.sinkFinish => 1
  | Event.addRow _ => 2
  | Event.cProgress _ => 2
  | Event.cStats => 2
  | Event.workbookCommit => 2
  | Event.zipEntry _ _ => 3
  | Event.zipFinalize => 3
  | Event.outputClose => 3
  | Event.zipStats => 3
  | Event.zipResolve => 3
  | Event.jobFailed => 4
  | Event.jobDoneLog => 4
  | Event.jobDoneStats => 4

/-- Body of the write loop for index i (src/index.js lines 58-67): generate
a user, write its JSON line, and when (i + 1) % 100000 === 0 — the literal
100000 from the source, which is tested instead of the batchSize variable —
log the batch index (i + 1) / batchSize, sample resources, and pause
500 ms. -/
def writeStep (f : Faker) (batchSize i : Nat) : List Event :=
  Event.writeLine (Line.record (userToObj (generateUser f i))) ::
    (if (i + 1) % 100000 == 0 then
      [Event.wProgress ((i + 1) / batchSize), Event.wStats, Event.wPause 500]
    else [])

/-- The write loop of writeUsersToNDJSON, iterating writeStep from index
start for count iterations. -/
def writeLoop (f : Faker) (batchSize : Nat) : Nat → Nat → List Event
  | _, 0 => []
  | start, count + 1 => writeStep f batchSize start ++ writeLoop f batchSize (start + 1) count

/-- writeUsersToNDJSON (src/index.js lines 53-71), with totalUsers and
batchSize as parameters; the source fixes totalUsers = 1000000 and
batchSize = 100000 as local constants inside the function. After the loop
the source calls stream.end() fire-and-forget and logs a final resource
sample, and the async function resolves: it registers no finish or close
listener on the write stream and awaits nothing from it, so the awaited
stage trace ends with the end() call and never contains the sink's
flush-completion event (Event.sinkFinish). -/
def writeUsersToNDJSON (f : Faker) (totalUsers batchSize : Nat) : List Event :=
  writeLoop f batchSize 0 totalUsers ++ [Event.streamEndCall, Event.wStats]

/-- The NDJSON artifact written by a trace: the lines of its writeLine
events, in order. -/
def ndjsonOf (tr : List Event) : List Line :=
  tr.filterMap fun e =>
    match e with
    | Event.writeLine l => some l
    | _ => none

/-- The lines generateUser produces for indices start, start+1, ...,
start+count-1, each serialized to one record line. -/
def generatedLines (f : Faker) (start count : Nat) : List Line :=
  (List.range' start count).map fun j => Line.record (userToObj (generateUser f j))

/-- Every faker field supply produces a nonempty string at every index;
this is the (external) contract of the faker library the claims assume. -/
def fakerNonEmpty (f : Faker) : Prop :=
  ∀ i : Nat,
    f.uuid i ≠ "" ∧ f.username i ≠ "" ∧ f.email i ≠ "" ∧ f.avatar i ≠ "" ∧
    f.password i ≠ "" ∧ f.birthdate i ≠ "" ∧ f.pastDate i ≠ ""

/-- The number of writer checkpoints in a trace: one per progress log
(each checkpoint is the progress log, the resource sample and the pacing
pause emitted together). -/
def countCheckpoints (tr : List Event) : Nat :=
  (tr.filter fun e =>
    match e with
    | Event.wProgress _ => true
    | _ => false).length

/-- The worksheet of the streamed XLSX workbook writer: the assigned
column keys, whether worksheet.columns has been assigned (which is what
makes ExcelJS emit a header row), and the committed data rows, each
already projected through the column keys. -/
structure Worksheet where
  columns : List String
  headerSet : Bool
  rows : List (List (Option String))
deriving DecidableEq

/-- Look up a key in a JSON object: the value of its first binding, none
when the key is absent. -/
def lookupKey (o : Obj) (k : String) : Option String :=
  match o.find? fun kv => kv.1 == k with
  | some kv => some kv.2
  | none => none

/-- How ExcelJS worksheet.addRow(object) materializes a row: one cell per
column key, in column order; a key missing from the object yields an empty
cell, keys outside the schema contribute nothing. -/
def projectRow (cols : List String) (o : Obj) : List (Option String) :=
  cols.map (lookupKey o)

/-- Number of header rows the ExcelJS writer emits for a worksheet: one
when worksheet.columns was assigned (headers come from the column
definitions), none otherwise. -/
def headerRows (ws : Worksheet) : Nat :=
  if ws.headerSet then 1 else 0

/-- The outcome of the conversion stage: its event trace (always emitted
up to the point reached) and either the final worksheet or the parse
error that rejected the stage. -/
structure ConvOut where
  trace : List Event
  result : Except Unit Worksheet

/-- The body the loop runs on any successfully parsed line (src/index.js
lines 90-101), identical for objects and non-objects since the code only
ever applies Object.keys and addRow to the parsed value: when isFirstRow,
assign worksheet.columns from the value's keys; then commit one row — an
array positionally (one cell per element), any other value by looking its
keys up in the column schema. Returns the updated worksheet and the
committed row. -/
def convertStep (ws : Worksheet) (isArr : Bool) (view : Obj) :
    Worksheet × List (Option String) :=
  let ws1 := if ws.headerSet then ws
    else { ws with columns := view.map Prod.fst, headerSet := true }
  let row := if isArr then view.map (fun kv => some kv.2) else projectRow ws1.columns view
  ({ ws1 with rows := ws1.rows ++ [row] }, row)

/-- The for-await loop of convertNDJSONToXLSX (src/index.js lines 86-107),
with the loop state (isFirstRow, here tracked as headerSet = not
isFirstRow, the worksheet and rowCount) explicit. A blank line is skipped
without effect; a malformed line is one on which JSON.parse throws,
aborting the stage with the events emitted so far and no commit; a line
carrying any successfully parsed value — object or not — runs convertStep
and continues, and every 100000 committed rows logs progress and samples
resources. On exhausting the source the workbook is committed and a final
sample logged. -/
def convertLoop (ws : Worksheet) (rowCount : Nat) : List Line → ConvOut
  | [] => { trace := [Event.workbookCommit, Event.cStats], result := Except.ok ws }
  | Line.blank :: rest => convertLoop ws rowCount rest
  | Line.malformed :: _ => { trace := [], result := Except.error () }
  | Line.record o :: rest =>
      let sr := convertStep ws false o
      let rc := rowCount + 1
      let ck := if rc % 100000 == 0 then [Event.cProgress rc, Event.cStats] else []
      let out := convertLoop sr.1 rc rest
      { trace := Event.addRow sr.2 :: ck ++ out.trace, result := out.result }
  | Line.nonObject isArr view :: rest =>
      let sr := convertStep ws isArr view
      let rc := rowCount + 1
      let ck := if rc % 100000 == 0 then [Event.cProgress rc, Event.cStats] else []
      let out := convertLoop sr.1 rc rest
      { trace := Event.addRow sr.2 :: ck ++ out.trace, result := out.result }

/-- convertNDJSONToXLSX (src/index.js lines 74-111): stream the NDJSON
lines into a fresh streamed worksheet, starting with no columns assigned
and zero rows. -/
def convertNDJSONToXLSX (lines : List Line) : ConvOut :=
  convertLoop { columns := [], headerSet := false, rows := [] } 0 lines

/-- The record objects of a line stream, in order: the payloads of its
parseable lines. -/
def recordsOf (ls : List Line) : List Obj :=
  ls.filterMap fun l =>
    match l with
    | Line.record o => some o
    | _ => none

/-- The data directory (src/index.js line 33); __dirname is taken as the
root of the modelled filesystem, so paths are relative to it. -/
def dataDir : String := "data"

/-- ndjsonPath (src/index.js line 34). -/
def ndjsonPath : String := dataDir ++ "/users_stream.ndjson"

/-- xlsxPath (src/index.js line 35). -/
def xlsxPath : String := dataDir ++ "/users_stream.xlsx"

/-- zipPath (src/index.js line 36). -/
def zipPath : String := dataDir ++ "/users_export.zip"

/-- The base name of a path: the component after the last slash. -/
def baseName (p : String) : String :=
  String.mk (p.data.foldl (fun acc c => if c = '/' then [] else acc ++ [c]) [])

/-- One entry of the produced archive: its name inside the archive and the
uncompressed byte size of the streamed source file. -/
structure ZipEntry where
  name : String
  uncompressedSize : Nat
deriving DecidableEq

/-- The archiver library's file-entry behaviour, applied to the entry list
the source supplies: each (sourcePath, entryName) pair streams the source
file's bytes into one entry of that name whose uncompressed size is the
file's size; a missing or unreadable source file raises the archiver's
error event, which rejects the stage. The filesystem is a map from path to
optional byte content. -/
def archiveEntries (fsys : String → Option (List Nat)) :
    List (String × String) → Except Unit (List ZipEntry)
  | [] => Except.ok []
  | (p, nm) :: rest =>
      match fsys p with
      | none => Except.error ()
      | some content =>
          match archiveEntries fsys rest with
          | Except.error e => Except.error e
          | Except.ok es => Except.ok ({ name := nm, uncompressedSize := content.length } :: es)

/-- zipFiles (src/index.js lines 114-133): archive the NDJSON file and then
the XLSX file, in that order, under the literal entry names from the
source; on success the appended entries are finalized, the output stream's
close event fires, the close handler logs the zip path with its byte count
and a resource sample and resolves the promise; on an archiver error the
promise rejects and neither the close event nor the resolution occurs. -/
def zipFiles (fsys : String → Option (List Nat)) :
    List Event × Except Unit (List ZipEntry) :=
  match archiveEntries fsys
      [(ndjsonPath, "users_stream.ndjson"), (xlsxPath, "users_stream.xlsx")] with
  | Except.error e => ([], Except.error e)
  | Except.ok es =>
      ((es.map fun en => Event.zipEntry en.name en.uncompressedSize) ++
        [Event.zipFinalize, Event.outputClose, Event.zipStats, Event.zipResolve],
       Except.ok es)

/-- How the three stream outcomes the zipFiles promise can observe are
distinguished: the output stream closed after a full flush, the archiver
raised its error event, or the destination write stream raised its error
event. -/
inductive ZipStreamOutcome where
  | closed : ZipStreamOutcome
  | archiveError : ZipStreamOutcome
  | outputWriteError : ZipStreamOutcome
deriving DecidableEq

/-- The settlement a registered listener produces for each stream event,
none when no listener is registered for it. -/
structure ZipHandlers where
  onOutputClose : Option (Except Unit Unit)
  onArchiveError : Option (Except Unit Unit)
  onOutputError : Option (Except Unit Unit)

/-- The listeners the zipFiles promise executor registers (src/index.js
lines 119-126): output.on close resolves, archive.on error rejects; no
listener is attached to the destination stream's error event. -/
def zipHandlers : ZipHandlers :=
  { onOutputClose := some (Except.ok ())
    onArchiveError := some (Except.error ())
    onOutputError := none }

/-- How the promise settles on each stream outcome: via the handler
registered for that event, if any; an outcome whose event has no
registered listener settles nothing (in Node an unhandled stream error is
raised outside the promise, so the awaiting caller never observes it). -/
def settleOn (h : ZipHandlers) : ZipStreamOutcome → Option (Except Unit Unit)
  | ZipStreamOutcome.closed => h.onOutputClose
  | ZipStreamOutcome.archiveError => h.onArchiveError
  | ZipStreamOutcome.outputWriteError => h.onOutputError

/-- The events of the job after conversion, given the conversion outcome
and the archiving outcome (src/index.js lines 136-144): a conversion error
rejects the job before zipFiles runs; a zipFiles rejection fails the job
after the zip trace; on success the completion log and final sample are
emitted. -/
def jobTail (conv : ConvOut) (z : List Event × Except Unit (List ZipEntry)) : List Event :=
  match conv.result with
  | Except.error _ => [Event.jobFailed]
  | Except.ok _ =>
      match z.2 with
      | Except.error _ => z.1 ++ [Event.jobFailed]
      | Except.ok _ => z.1 ++ [Event.jobDoneLog, Event.jobDoneStats]

/-- The agenda job handler generate-and-zip-users (src/index.js lines
136-144): a start log and sample, then the three stage functions awaited
in order, the converter reading exactly the lines the writer wrote. The
trace holds only what those promises actually wait for: the generation
stage's promise resolves without the write stream's flush completion, so
no sinkFinish event appears anywhere in the job trace. The filesystem
seen by zipFiles is a parameter. -/
def jobRun (f : Faker) (totalUsers batchSize : Nat)
    (fsys : String → Option (List Nat)) : List Event :=
  let wtrace := writeUsersToNDJSON f totalUsers batchSize
  let conv := convertNDJSONToXLSX (ndjsonOf wtrace)
  Event.jobStartLog :: Event.jobStartStats ::
    (wtrace ++ (conv.trace ++ jobTail conv (zipFiles fsys)))

/-- A concrete faker supply used to instantiate the theorems: every field
is a fixed one-character string. -/
def trivFaker : Faker :=
  { uuid := fun _ => "u", username := fun _ => "n", email := fun _ => "e",
    avatar := fun _ => "a", password := fun _ => "p",
    birthdate := fun _ => "b", pastDate := fun _ => "r" }

lemma trivFaker_nonEmpty : fakerNonEmpty trivFaker := by
  intro i
  refine ⟨?_, ?_, ?_, ?_, ?_, ?_, ?_⟩ <;> simp [trivFaker]

lemma ndjsonOf_append (a b : List Event) : ndjsonOf (a ++ b) = ndjsonOf a ++ ndjsonOf b := by
  simp [ndjsonOf]

lemma ndjsonOf_writeStep (f : Faker) (batchSize i : Nat) :
    ndjsonOf (writeStep f batchSize i) = [Line.record (userToObj (generateUser f i))] := by
  simp only [writeStep, ndjsonOf, List.filterMap_cons]
  split <;> rfl

lemma ndjsonOf_writeLoop (f : Faker) (batchSize : Nat) :
    ∀ count start : Nat, ndjsonOf (writeLoop f batchSize start count) = generatedLines f start count := by
  intro count
  induction count with
  | zero => intro start; rfl
  | succ n ih =>
      intro start
      simp only [writeLoop, ndjsonOf_append, ndjsonOf_writeStep, ih]
      simp [generatedLines, List.range']

lemma ndjsonOf_writer (f : Faker) (totalUsers batchSize : Nat) :
    ndjsonOf (writeUsersToNDJSON f totalUsers batchSize) = generatedLines f 0 totalUsers := by
  simp only [writeUsersToNDJSON, ndjsonOf_append, ndjsonOf_writeLoop]
  simp [ndjsonOf]

lemma userToObj_keys (u : User) : (userToObj u).map Prod.fst = userKeys := rfl

/-- C1: for every totalCount (and batch size), the generation stage writes
an NDJSON artifact with exactly totalCount non-blank lines, each parsing
as a JSON object carrying the seven user fields, all nonempty whenever the
faker supplies nonempty field values. -/
theorem writer_produces_exact_nonempty_lines (f : Faker) (hf : fakerNonEmpty f)
    (totalUsers batchSize : Nat) :
    (ndjsonOf (writeUsersToNDJSON f totalUsers batchSize)).length = totalUsers ∧
    ∀ l ∈ ndjsonOf (writeUsersToNDJSON f totalUsers batchSize),
      lineNonBlank l = true ∧
      ∃ o : Obj, l = Line.record o ∧ o.map Prod.fst = userKeys ∧ ∀ kv ∈ o, kv.2 ≠ "" := by
  rw [ndjsonOf_writer]
  constructor
  · simp [generatedLines]
  · intro l hl
    simp only [generatedLines, List.mem_map] at hl
    obtain ⟨j, hj, rfl⟩ := hl
    refine ⟨rfl, userToObj (generateUser f j), rfl, userToObj_keys _, ?_⟩
    intro kv hkv
    obtain ⟨h1, h2, h3, h4, h5, h6, h7⟩ := hf j
    simp only [userToObj, generateUser, List.mem_cons, List.not_mem_nil, or_false] at hkv
    rcases hkv with h | h | h | h | h | h | h <;> subst h <;> assumption

/-- Witness for C1 at totalCount 3, batchSize 2 with the concrete faker. -/
theorem writer_produces_exact_nonempty_lines_witness :
    fakerNonEmpty trivFaker ∧
    ((ndjsonOf (writeUsersToNDJSON trivFaker 3 2)).length = 3 ∧
     ∀ l ∈ ndjsonOf (writeUsersToNDJSON trivFaker 3 2),
       lineNonBlank l = true ∧
       ∃ o : Obj, l = Line.record o ∧ o.map Prod.fst = userKeys ∧ ∀ kv ∈ o, kv.2 ≠ "") :=
  ⟨trivFaker_nonEmpty, writer_produces_exact_nonempty_lines trivFaker trivFaker_nonEmpty 3 2⟩

/-- C2: the spec's own scenario totalCount = 5, batchSize = 2 evaluated on
the code: no checkpoint fires at all, because the loop tests the literal
100000 instead of the batchSize variable, while the artifact still gets
its 5 lines; the claim expects exactly two checkpoints, after records 2
and 4. -/
theorem writer_checkpoints_at_5_2_eval :
    countCheckpoints (writeUsersToNDJSON trivFaker 5 2) = 0 ∧
    (ndjsonOf (writeUsersToNDJSON trivFaker 5 2)).length = 5 :=
  ⟨rfl, rfl⟩

lemma convertLoop_skips_blank (ws : Worksheet) (rc : Nat) (rest : List Line) :
    convertLoop ws rc (Line.blank :: rest) = convertLoop ws rc rest := rfl

/-- Unfolding of one record step once the schema is set: the row is
projected through the existing columns and the schema is untouched. -/
lemma convertLoop_record_step (cols : List String) (rows : List (List (Option String)))
    (rc : Nat) (o : Obj) (rest : List Line) :
    convertLoop { columns := cols, headerSet := true, rows := rows } rc (Line.record o :: rest) =
      { trace := Event.addRow (projectRow cols o) ::
          ((if (rc + 1) % 100000 == 0 then [Event.cProgress (rc + 1), Event.cStats] else []) ++
            (convertLoop { columns := cols, headerSet := true,
                           rows := rows ++ [projectRow cols o] } (rc + 1) rest).trace),
        result := (convertLoop { columns := cols, headerSet := true,
                                 rows := rows ++ [projectRow cols o] } (rc + 1) rest).result } := rfl

/-- Unfolding of the first record step: the record's keys become the
schema and its projection becomes the first row. -/
lemma convertLoop_record_first (rc : Nat) (o : Obj) (rest : List Line) :
    convertLoop { columns := [], headerSet := false, rows := [] } rc (Line.record o :: rest) =
      { trace := Event.addRow (projectRow (o.map Prod.fst) o) ::
          ((if (rc + 1) % 100000 == 0 then [Event.cProgress (rc + 1), Event.cStats] else []) ++
            (convertLoop { columns := o.map Prod.fst, headerSet := true,
                           rows := [projectRow (o.map Prod.fst) o] } (rc + 1) rest).trace),
        result := (convertLoop { columns := o.map Prod.fst, headerSet := true,
                                 rows := [projectRow (o.map Prod.fst) o] } (rc + 1) rest).result } := rfl

/-- Once worksheet.columns is assigned, the rest of a stream of blanks
and well-formed objects leaves the schema unchanged and appends one
projected row per record. -/
lemma convertLoop_headerSet (ls : List Line) :
    (∀ l ∈ ls, isObjectLine l = true) →
    ∀ (cols : List String) (rows : List (List (Option String))) (rc : Nat),
      (convertLoop { columns := cols, headerSet := true, rows := rows } rc ls).result =
        Except.ok { columns := cols, headerSet := true,
                    rows := rows ++ (recordsOf ls).map (projectRow cols) } := by
  induction ls with
  | nil => intro _ cols rows rc; simp [convertLoop, recordsOf]
  | cons l rest ih =>
      intro hobj cols rows rc
      have hrest : ∀ l ∈ rest, isObjectLine l = true :=
        fun l hl => hobj l (List.mem_cons_of_mem _ hl)
      match l with
      | Line.blank =>
          rw [convertLoop_skips_blank, ih hrest]
          simp [recordsOf]
      | Line.malformed =>
          have h := hobj Line.malformed (List.mem_cons_self _ _)
          simp [isObjectLine] at h
      | Line.nonObject isArr view =>
          have h := hobj (Line.nonObject isArr view) (List.mem_cons_self _ _)
          simp [isObjectLine] at h
      | Line.record o =>
          rw [convertLoop_record_step, ih hrest]
          simp [recordsOf]

/-- The converter's result on a stream of blanks and well-formed objects:
the empty worksheet when the stream has no record, otherwise the first
record's keys as the schema and one row per record, each projected
through that schema. -/
lemma convert_result_wellformed (ls : List Line) (hobj : ∀ l ∈ ls, isObjectLine l = true) :
    (convertNDJSONToXLSX ls).result =
      match recordsOf ls with
      | [] => Except.ok { columns := [], headerSet := false, rows := [] }
      | o :: os =>
          Except.ok { columns := o.map Prod.fst, headerSet := true,
                      rows := (o :: os).map (projectRow (o.map Prod.fst)) } := by
  induction ls with
  | nil => rfl
  | cons l rest ih =>
      have hrest : ∀ l ∈ rest, isObjectLine l = true :=
        fun l hl => hobj l (List.mem_cons_of_mem _ hl)
      match l with
      | Line.blank =>
          show (convertLoop _ _ rest).result = _
          rw [show (recordsOf (Line.blank :: rest)) = recordsOf rest from rfl]
          exact ih hrest
      | Line.malformed =>
          have h := hobj Line.malformed (List.mem_cons_self _ _)
          simp [isObjectLine] at h
      | Line.nonObject isArr view =>
          have h := hobj (Line.nonObject isArr view) (List.mem_cons_self _ _)
          simp [isObjectLine] at h
      | Line.record o =>
          show (convertNDJSONToXLSX (Line.record o :: rest)).result = _
          simp only [convertNDJSONToXLSX]
          rw [convertLoop_record_first, convertLoop_headerSet rest hrest]
          simp [recordsOf]

lemma convertStep_rows_length (ws : Worksheet) (isArr : Bool) (view : Obj) :
    (convertStep ws isArr view).1.rows.length = ws.rows.length + 1 := by
  by_cases hh : ws.headerSet = true <;> simp [convertStep, hh]

lemma convertStep_headerSet (ws : Worksheet) (isArr : Bool) (view : Obj) :
    (convertStep ws isArr view).1.headerSet = true := by
  by_cases hh : ws.headerSet = true <;> simp [convertStep, hh]

/-- On any source without a malformed line the loop runs to the workbook
commit: it succeeds, commits exactly one row per non-blank line (object
or not), and has assigned worksheet.columns exactly when some non-blank
line occurred. -/
lemma convertLoop_progress (ls : List Line) :
    Line.malformed ∉ ls → ∀ (ws : Worksheet) (rc : Nat),
      ∃ ws2 : Worksheet, (convertLoop ws rc ls).result = Except.ok ws2 ∧
        ws2.rows.length = ws.rows.length + (ls.filter lineNonBlank).length ∧
        ws2.headerSet = (ws.headerSet || decide (0 < (ls.filter lineNonBlank).length)) := by
  induction ls with
  | nil => intro _ ws rc; exact ⟨ws, rfl, by simp, by simp⟩
  | cons l rest ih =>
      intro hm ws rc
      have hrest : Line.malformed ∉ rest := fun h => hm (List.mem_cons_of_mem _ h)
      match l with
      | Line.blank =>
          rw [convertLoop_skips_blank]
          rw [show (Line.blank :: rest).filter lineNonBlank = rest.filter lineNonBlank from rfl]
          exact ih hrest ws rc
      | Line.malformed => exact absurd (List.mem_cons_self _ _) hm
      | Line.record o =>
          obtain ⟨ws2, hres, hlen, hhs⟩ := ih hrest (convertStep ws false o).1 (rc + 1)
          refine ⟨ws2, hres, ?_, ?_⟩
          · rw [hlen, convertStep_rows_length]
            rw [show (Line.record o :: rest).filter lineNonBlank =
                Line.record o :: rest.filter lineNonBlank from rfl]
            simp only [List.length_cons]
            omega
          · rw [hhs, convertStep_headerSet]
            rw [show (Line.record o :: rest).filter lineNonBlank =
                Line.record o :: rest.filter lineNonBlank from rfl]
            simp
      | Line.nonObject isArr view =>
          obtain ⟨ws2, hres, hlen, hhs⟩ := ih hrest (convertStep ws isArr view).1 (rc + 1)
          refine ⟨ws2, hres, ?_, ?_⟩
          · rw [hlen, convertStep_rows_length]
            rw [show (Line.nonObject isArr view :: rest).filter lineNonBlank =
                Line.nonObject isArr view :: rest.filter lineNonBlank from rfl]
            simp only [List.length_cons]
            omega
          · rw [hhs, convertStep_headerSet]
            rw [show (Line.nonObject isArr view :: rest).filter lineNonBlank =
                Line.nonObject isArr view :: rest.filter lineNonBlank from rfl]
            simp

/-- C4 counterexample: a source with K = 0 non-blank lines converts to a
worksheet with no header row at all (worksheet.columns was never
assigned), not the one header row the claim asserts for every K. -/
theorem convert_empty_source_no_header :
    (convertNDJSONToXLSX []).result =
      Except.ok { columns := [], headerSet := false, rows := [] } ∧
    ∀ ws : Worksheet,
      (convertNDJSONToXLSX []).result = Except.ok ws → headerRows ws ≠ 1 := by
  refine ⟨rfl, ?_⟩
  intro ws hws
  have : ws = { columns := [], headerSet := false, rows := [] } := by
    cases hws; rfl
  subst this
  simp [headerRows]

/-- C4 amended: for every source of K non-blank lines, K at least 1, each
parseable as a JSON object, conversion succeeds with exactly K data rows
and exactly one header row (with K = 0 the artifact has no header row). -/
theorem convert_rowcount (ls : List Line) (K : Nat) (hm : Line.malformed ∉ ls)
    (hK : (ls.filter lineNonBlank).length = K) (hpos : 1 ≤ K) :
    ∃ ws : Worksheet, (convertNDJSONToXLSX ls).result = Except.ok ws ∧
      ws.rows.length = K ∧ headerRows ws = 1 := by
  obtain ⟨ws2, hres, hlen, hhs⟩ :=
    convertLoop_progress ls hm { columns := [], headerSet := false, rows := [] } 0
  refine ⟨ws2, hres, ?_, ?_⟩
  · rw [hlen, hK]
    simp
  · rw [hK] at hhs
    have hdec : decide (0 < K) = true := by simp; omega
    rw [hdec] at hhs
    simp at hhs
    simp [headerRows, hhs]

/-- Witness for C4 amended: one record line and one blank line give one
data row and one header row. -/
theorem convert_rowcount_witness :
    Line.malformed ∉ [Line.record [("a", "1")], Line.blank] ∧
    ([Line.record [("a", "1")], Line.blank].filter lineNonBlank).length = 1 ∧ 1 ≤ 1 ∧
    ∃ ws : Worksheet,
      (convertNDJSONToXLSX [Line.record [("a", "1")], Line.blank]).result = Except.ok ws ∧
      ws.rows.length = 1 ∧ headerRows ws = 1 :=
  ⟨by decide, by decide, le_refl 1,
    convert_rowcount [Line.record [("a", "1")], Line.blank] 1 (by decide) (by decide) (le_refl 1)⟩

/-- C5: the schema is the first record's keys in that record's order, says
fixed for the whole run: every committed row is the projection of its
record through that schema, so a record with missing keys gets empty cells
and a record with extra keys adds no column; conversion succeeds. -/
theorem schema_fixed_by_first_record (ls : List Line) (o : Obj) (os : List Obj)
    (hobj : ∀ l ∈ ls, isObjectLine l = true) (hr : recordsOf ls = o :: os) :
    ∃ ws : Worksheet, (convertNDJSONToXLSX ls).result = Except.ok ws ∧
      ws.columns = o.map Prod.fst ∧
      ws.rows = (o :: os).map (projectRow (o.map Prod.fst)) ∧
      ∀ row ∈ ws.rows, row.length = (o.map Prod.fst).length := by
  have hconv := convert_result_wellformed ls hobj
  rw [hr] at hconv
  refine ⟨_, hconv, rfl, rfl, ?_⟩
  intro row hrow
  simp only [List.mem_map] at hrow
  obtain ⟨o2, _, rfl⟩ := hrow
  simp [projectRow]

/-- Witness for C5: a second record with key b missing and an extra key c
is projected into the schema of the first record. -/
theorem schema_fixed_by_first_record_witness :
    (∀ l ∈ [Line.record [("a", "1"), ("b", "2")], Line.record [("a", "3"), ("c", "4")]],
      isObjectLine l = true) ∧
    recordsOf [Line.record [("a", "1"), ("b", "2")], Line.record [("a", "3"), ("c", "4")]] =
      [("a", "1"), ("b", "2")] :: [[("a", "3"), ("c", "4")]] ∧
    ∃ ws : Worksheet,
      (convertNDJSONToXLSX
          [Line.record [("a", "1"), ("b", "2")], Line.record [("a", "3"), ("c", "4")]]).result =
        Except.ok ws ∧
      ws.columns = ["a", "b"] ∧
      ws.rows = [[some "1", some "2"], [some "3", none]] ∧
      ∀ row ∈ ws.rows, row.length = 2 := by
  refine ⟨by decide, by decide, ?_⟩
  obtain ⟨ws, h1, h2, h3, h4⟩ :=
    schema_fixed_by_first_record
      [Line.record [("a", "1"), ("b", "2")], Line.record [("a", "3"), ("c", "4")]]
      [("a", "1"), ("b", "2")] [[("a", "3"), ("c", "4")]] (by decide) (by decide)
  exact ⟨ws, h1, by simpa using h2, by simpa [projectRow, lookupKey] using h3, by simpa using h4⟩

/-- Removing the blank lines of a source changes neither the converter's
events nor its outcome: a blank line is skipped without effect. -/
lemma convertLoop_filter_blanks (ls : List Line) :
    ∀ (ws : Worksheet) (rc : Nat),
      convertLoop ws rc (ls.filter lineNonBlank) = convertLoop ws rc ls := by
  induction ls with
  | nil => intro ws rc; rfl
  | cons l rest ih =>
      intro ws rc
      match l with
      | Line.blank =>
          rw [convertLoop_skips_blank]
          rw [show (Line.blank :: rest).filter lineNonBlank = rest.filter lineNonBlank from rfl]
          exact ih ws rc
      | Line.malformed =>
          rw [show (Line.malformed :: rest).filter lineNonBlank =
              Line.malformed :: rest.filter lineNonBlank from rfl]
          rfl
      | Line.record o =>
          rw [show (Line.record o :: rest).filter lineNonBlank =
              Line.record o :: rest.filter lineNonBlank from rfl]
          show ConvOut.mk _ _ = ConvOut.mk _ _
          rw [ih]
      | Line.nonObject isArr view =>
          rw [show (Line.nonObject isArr view :: rest).filter lineNonBlank =
              Line.nonObject isArr view :: rest.filter lineNonBlank from rfl]
          show ConvOut.mk _ _ = ConvOut.mk _ _
          rw [ih]

/-- A malformed line anywhere in the source makes the stage reject, and
the workbook commit event is never reached. -/
lemma convertLoop_malformed (ls : List Line) (h : Line.malformed ∈ ls) :
    ∀ (ws : Worksheet) (rc : Nat),
      (convertLoop ws rc ls).result = Except.error () ∧
      Event.workbookCommit ∉ (convertLoop ws rc ls).trace := by
  induction ls with
  | nil => exact absurd h (List.not_mem_nil _)
  | cons l rest ih =>
      intro ws rc
      match l with
      | Line.blank =>
          rw [convertLoop_skips_blank]
          exact ih (by simpa using h) ws rc
      | Line.malformed => exact ⟨rfl, List.not_mem_nil _⟩
      | Line.record o =>
          have hrest : Line.malformed ∈ rest := by simpa using h
          constructor
          · show (convertLoop _ _ rest).result = _
            exact (ih hrest _ _).1
          · show Event.workbookCommit ∉ Event.addRow _ :: (_ ++ (convertLoop _ _ rest).trace)
            intro hmem
            rcases List.mem_cons.mp hmem with hc | hc
            · exact Event.noConfusion hc
            · rcases List.mem_append.mp hc with hc2 | hc2
              · revert hc2
                split <;> simp
              · exact (ih hrest _ _).2 hc2
      | Line.nonObject isArr view =>
          have hrest : Line.malformed ∈ rest := by simpa using h
          constructor
          · show (convertLoop _ _ rest).result = _
            exact (ih hrest _ _).1
          · show Event.workbookCommit ∉ Event.addRow _ :: (_ ++ (convertLoop _ _ rest).trace)
            intro hmem
            rcases List.mem_cons.mp hmem with hc | hc
            · exact Event.noConfusion hc
            · rcases List.mem_append.mp hc with hc2 | hc2
              · revert hc2
                split <;> simp
              · exact (ih hrest _ _).2 hc2

/-- C6 counterexample: a non-blank line that does not parse as a JSON
object — here the array line [1,2] — does not abort the conversion: the
stage succeeds, with Object.keys of the array supplying the schema and
the array committed positionally as a row, contradicting the claim that
any such line is fatal. -/
theorem nonobject_line_not_rejected :
    (convertNDJSONToXLSX [Line.nonObject true [("0", "1"), ("1", "2")]]).result =
      Except.ok { columns := ["0", "1"], headerSet := true, rows := [[some "1", some "2"]] } ∧
    ¬ (convertNDJSONToXLSX [Line.nonObject true [("0", "1"), ("1", "2")]]).result =
      Except.error () := by
  refine ⟨rfl, ?_⟩
  intro h
  rw [show (convertNDJSONToXLSX [Line.nonObject true [("0", "1"), ("1", "2")]]).result =
      Except.ok { columns := ["0", "1"], headerSet := true, rows := [[some "1", some "2"]] }
      from rfl] at h
  exact Except.noConfusion h

/-- C6 amended: blank lines are skipped without error and contribute no
row (conversion of a source equals conversion of the source with its
blank lines removed), and the stage aborts with a fatal parse error
exactly when some non-blank line makes JSON.parse throw — such a line is
never skipped; a non-blank line of valid non-object, non-null JSON does
not abort the stage. -/
theorem blanks_skipped_parse_throw_fatal (ls : List Line) :
    convertNDJSONToXLSX (ls.filter lineNonBlank) = convertNDJSONToXLSX ls ∧
    ((convertNDJSONToXLSX ls).result = Except.error () ↔ Line.malformed ∈ ls) := by
  refine ⟨convertLoop_filter_blanks ls _ 0, ?_, fun h => (convertLoop_malformed ls h _ 0).1⟩
  intro herr
  by_contra hnm
  obtain ⟨ws2, hres, _, _⟩ :=
    convertLoop_progress ls hnm { columns := [], headerSet := false, rows := [] } 0
  have hres2 : (convertNDJSONToXLSX ls).result = Except.ok ws2 := hres
  rw [hres2] at herr
  exact Except.noConfusion herr

/-- Witness for C6 amended: a blank line between two records is dropped
without effect, and a source with a malformed line rejects. -/
theorem blanks_skipped_parse_throw_fatal_witness :
    convertNDJSONToXLSX
        ([Line.record [("a", "1")], Line.blank, Line.record [("a", "2")]].filter lineNonBlank) =
      convertNDJSONToXLSX [Line.record [("a", "1")], Line.blank, Line.record [("a", "2")]] ∧
    Line.malformed ∈ [Line.record [("a", "1")], Line.malformed] ∧
    (convertNDJSONToXLSX [Line.record [("a", "1")], Line.malformed]).result = Except.error () :=
  ⟨(blanks_skipped_parse_throw_fatal [Line.record [("a", "1")], Line.blank, Line.record [("a", "2")]]).1,
   by decide,
   (blanks_skipped_parse_throw_fatal [Line.record [("a", "1")], Line.malformed]).2.mpr (by decide)⟩

/-- Every event the converter emits belongs to the conversion stage. -/
lemma convertLoop_trace_rank (ls : List Line) :
    ∀ (ws : Worksheet) (rc : Nat), ∀ e ∈ (convertLoop ws rc ls).trace, stageRank e = 2 := by
  induction ls with
  | nil =>
      intro ws rc e he
      rcases List.mem_cons.mp he with h | h
      · subst h; rfl
      · simp only [List.mem_singleton] at h; subst h; rfl
  | cons l rest ih =>
      intro ws rc e he
      match l with
      | Line.blank => exact ih ws rc e he
      | Line.malformed => exact absurd he (List.not_mem_nil _)
      | Line.record o =>
          rcases List.mem_cons.mp he with h | h
          · subst h; rfl
          · rcases List.mem_append.mp h with h2 | h2
            · revert h2
              split
              · intro h2
                rcases List.mem_cons.mp h2 with h3 | h3
                · subst h3; rfl
                · simp only [List.mem_singleton] at h3; subst h3; rfl
              · intro h2; exact absurd h2 (List.not_mem_nil _)
            · exact ih _ _ e h2
      | Line.nonObject isArr view =>
          rcases List.mem_cons.mp he with h | h
          · subst h; rfl
          · rcases List.mem_append.mp h with h2 | h2
            · revert h2
              split
              · intro h2
                rcases List.mem_cons.mp h2 with h3 | h3
                · subst h3; rfl
                · simp only [List.mem_singleton] at h3; subst h3; rfl
              · intro h2; exact absurd h2 (List.not_mem_nil _)
            · exact ih _ _ e h2

/-- C9: if the source holds a malformed line, conversion rejects, the
workbook commit is never invoked (the table sink is left unfinalized), and
no event of the conversion writes a line of the NDJSON source. -/
theorem malformed_leaves_sink_unfinalized (ls : List Line) (h : Line.malformed ∈ ls) :
    (convertNDJSONToXLSX ls).result = Except.error () ∧
    Event.workbookCommit ∉ (convertNDJSONToXLSX ls).trace ∧
    ∀ e ∈ (convertNDJSONToXLSX ls).trace, ∀ l : Line, e ≠ Event.writeLine l := by
  refine ⟨(convertLoop_malformed ls h _ 0).1, (convertLoop_malformed ls h _ 0).2, ?_⟩
  intro e he l
  have hrank := convertLoop_trace_rank ls _ 0 e he
  intro heq
  rw [heq] at hrank
  exact absurd hrank (by simp [stageRank])

/-- Witness for C9 on a two-line source whose second line is malformed. -/
theorem malformed_leaves_sink_unfinalized_witness :
    Line.malformed ∈ [Line.record [("a", "1")], Line.malformed] ∧
    ((convertNDJSONToXLSX [Line.record [("a", "1")], Line.malformed]).result = Except.error () ∧
     Event.workbookCommit ∉ (convertNDJSONToXLSX [Line.record [("a", "1")], Line.malformed]).trace ∧
     ∀ e ∈ (convertNDJSONToXLSX [Line.record [("a", "1")], Line.malformed]).trace,
       ∀ l : Line, e ≠ Event.writeLine l) :=
  ⟨by decide,
   malformed_leaves_sink_unfinalized [Line.record [("a", "1")], Line.malformed] (by decide)⟩

/-- C7: with both artifact files present, the archiver produces exactly
two entries, named by the two source files' base names, in the order the
source supplies them, each with uncompressed size equal to its source
file's size. -/
theorem zip_two_entries (fsys : String → Option (List Nat)) (c1 c2 : List Nat)
    (h1 : fsys ndjsonPath = some c1) (h2 : fsys xlsxPath = some c2) :
    (zipFiles fsys).2 =
      Except.ok [{ name := baseName ndjsonPath, uncompressedSize := c1.length },
                 { name := baseName xlsxPath, uncompressedSize := c2.length }] ∧
    baseName ndjsonPath = "users_stream.ndjson" ∧
    baseName xlsxPath = "users_stream.xlsx" := by
  have hb1 : baseName ndjsonPath = "users_stream.ndjson" := by decide
  have hb2 : baseName xlsxPath = "users_stream.xlsx" := by decide
  refine ⟨?_, hb1, hb2⟩
  rw [hb1, hb2]
  simp [zipFiles, archiveEntries, h1, h2]

/-- A concrete filesystem with a 6-byte NDJSON file (three records A, B, C
each on its own line) and a 4-byte XLSX file. -/
def demoFsys : String → Option (List Nat) := fun p =>
  if p = ndjsonPath then some [65, 10, 66, 10, 67, 10]
  else if p = xlsxPath then some [80, 75, 3, 4] else none

/-- Witness for C7 on the concrete filesystem. -/
theorem zip_two_entries_witness :
    demoFsys ndjsonPath = some [65, 10, 66, 10, 67, 10] ∧
    demoFsys xlsxPath = some [80, 75, 3, 4] ∧
    ((zipFiles demoFsys).2 =
        Except.ok [{ name := baseName ndjsonPath, uncompressedSize := 6 },
                   { name := baseName xlsxPath, uncompressedSize := 4 }] ∧
      baseName ndjsonPath = "users_stream.ndjson" ∧
      baseName xlsxPath = "users_stream.xlsx") :=
  ⟨by decide, by decide,
   zip_two_entries demoFsys [65, 10, 66, 10, 67, 10] [80, 75, 3, 4] (by decide) (by decide)⟩

/-- C8 counterexample: a destination write failure settles nothing — the
promise neither resolves nor rejects, because zipFiles registers no
listener for the destination stream's error event, so no fatal error
reaches the awaiting caller. -/
theorem dest_write_error_not_surfaced :
    settleOn zipHandlers ZipStreamOutcome.outputWriteError = none ∧
    ∀ r : Except Unit Unit, settleOn zipHandlers ZipStreamOutcome.outputWriteError ≠ some r :=
  ⟨rfl, fun _ h => Option.noConfusion h⟩

/-- C8 amended: the archiver resolves only through the destination sink's
close handler, so completion implies the sink was fully flushed and
closed; a missing or unreadable entry source rejects the stage with the
error surfaced to the caller and completion never signalled; an archiver
error likewise surfaces as a rejection. (A destination write failure is
fatal but not surfaced through the promise.) -/
theorem zip_completion_and_error_surfacing (fsys : String → Option (List Nat)) :
    (∀ o : ZipStreamOutcome, settleOn zipHandlers o = some (Except.ok ()) →
        o = ZipStreamOutcome.closed) ∧
    (fsys ndjsonPath = none ∨ fsys xlsxPath = none →
        (zipFiles fsys).2 = Except.error () ∧ Event.zipResolve ∉ (zipFiles fsys).1) ∧
    settleOn zipHandlers ZipStreamOutcome.archiveError = some (Except.error ()) := by
  refine ⟨?_, ?_, rfl⟩
  · intro o ho
    cases o with
    | closed => rfl
    | archiveError => exact absurd ho (by simp [settleOn, zipHandlers])
    | outputWriteError => exact absurd ho (by simp [settleOn, zipHandlers])
  · intro h
    rcases h with h | h
    · constructor
      · simp [zipFiles, archiveEntries, h]
      · simp [zipFiles, archiveEntries, h]
    · match hx : fsys ndjsonPath with
      | none =>
          constructor
          · simp [zipFiles, archiveEntries, hx]
          · simp [zipFiles, archiveEntries, hx]
      | some c =>
          constructor
          · simp [zipFiles, archiveEntries, hx, h]
          · simp [zipFiles, archiveEntries, hx, h]

/-- Witness for C8 amended on the empty filesystem: archiving rejects and
never signals completion. -/
theorem zip_completion_and_error_surfacing_witness :
    ((fun _ => none : String → Option (List Nat)) ndjsonPath = none ∨
     (fun _ => none : String → Option (List Nat)) xlsxPath = none) ∧
    ((zipFiles fun _ => none).2 = Except.error () ∧
      Event.zipResolve ∉ (zipFiles fun _ => none).1) :=
  ⟨Or.inl rfl, (zip_completion_and_error_surfacing fun _ => none).2.1 (Or.inl rfl)⟩


lemma generatedLines_objects (f : Faker) (s c : Nat) :
    ∀ l ∈ generatedLines f s c, isObjectLine l = true := by
  intro l hl
  simp only [generatedLines, List.mem_map] at hl
  obtain ⟨j, _, rfl⟩ := hl
  rfl

/-- C3 evaluated on the code at totalCount 1, batchSize 1 with a concrete
filesystem: the generation stage's awaited trace contains the
fire-and-forget stream.end() call but no flush-completion event of the
line-stream sink, and no such event occurs anywhere in the job trace —
nothing the code awaits orders the start of conversion after the sink's
flush and close. (The table-sink half of the claim is honoured: the
workbook commit is awaited before zipFiles runs.) -/
theorem writer_never_awaits_flush :
    Event.streamEndCall ∈ writeUsersToNDJSON trivFaker 1 1 ∧
    Event.sinkFinish ∉ writeUsersToNDJSON trivFaker 1 1 ∧
    Event.sinkFinish ∉ jobRun trivFaker 1 1 demoFsys := by
  decide

lemma recordsOf_generated (f : Faker) (s c : Nat) :
    recordsOf (generatedLines f s c) =
      (List.range' s c).map fun j => userToObj (generateUser f j) := by
  induction c generalizing s with
  | zero => rfl
  | succ m ih =>
      rw [show List.range' s (m + 1) = s :: List.range' (s + 1) m from rfl]
      rw [show generatedLines f s (m + 1) =
          Line.record (userToObj (generateUser f s)) :: generatedLines f (s + 1) m by
        simp [generatedLines, List.range']]
      simp only [recordsOf, List.filterMap_cons, List.map_cons]
      show userToObj (generateUser f s) :: recordsOf (generatedLines f (s + 1) m) = _
      rw [ih (s + 1)]

/-- C10: generateUser always returns an object with exactly the seven keys
userId, username, email, avatar, password, birthdate, registeredAt in that
fixed order; every record of a generated artifact therefore carries that
same key set, and converting a generated artifact with at least one record
infers exactly those seven columns in that order. -/
theorem generator_fixed_keys_schema (f : Faker) (n b : Nat) :
    (∀ i : Nat, (userToObj (generateUser f i)).map Prod.fst = userKeys) ∧
    (∀ l ∈ ndjsonOf (writeUsersToNDJSON f n b),
      ∃ o : Obj, l = Line.record o ∧ o.map Prod.fst = userKeys) ∧
    (1 ≤ n → ∃ ws : Worksheet,
      (convertNDJSONToXLSX (ndjsonOf (writeUsersToNDJSON f n b))).result = Except.ok ws ∧
      ws.columns = userKeys) := by
  refine ⟨fun i => userToObj_keys _, ?_, ?_⟩
  · intro l hl
    rw [ndjsonOf_writer] at hl
    simp only [generatedLines, List.mem_map] at hl
    obtain ⟨j, _, rfl⟩ := hl
    exact ⟨_, rfl, userToObj_keys _⟩
  · intro hn
    rw [ndjsonOf_writer]
    obtain ⟨m, rfl⟩ : ∃ m, n = m + 1 := ⟨n - 1, by omega⟩
    have hobj := generatedLines_objects f 0 (m + 1)
    have hconv := convert_result_wellformed _ hobj
    have hrec : recordsOf (generatedLines f 0 (m + 1)) =
        userToObj (generateUser f 0) ::
          (List.range' 1 m).map fun j => userToObj (generateUser f j) := by
      rw [recordsOf_generated]
      simp [List.range']
    rw [hrec] at hconv
    exact ⟨_, hconv, userToObj_keys _⟩

/-- Witness for C10 at totalCount 2: the inferred schema is the seven user
keys. -/
theorem generator_fixed_keys_schema_witness :
    (1 : Nat) ≤ 2 ∧
    ∃ ws : Worksheet,
      (convertNDJSONToXLSX (ndjsonOf (writeUsersToNDJSON trivFaker 2 2))).result = Except.ok ws ∧
      ws.columns = userKeys :=
  ⟨by decide, (generator_fixed_keys_schema trivFaker 2 2).2.2 (by decide)⟩

end UsersExport
